import Mathlib

/-!
Shallow embedding of the registry-center service (src/index.ts): a minimal
service registry over a key-value store.  Node lists are kept per service
name; heartbeat/register, discover (with lazy expiry compaction), unregister
and a sweep over all keys are modelled as pure functions from a store state
to an outcome together with the trace of store operations they perform.
-/

namespace RegistryCenter

/-- A registered service node: an address plus its last-heartbeat timestamp
(the ServiceNode interface of src/index.ts).  Timestamps are integers
(milliseconds, as produced by Date.now()). -/
structure ServiceNode where
  address : String
  lastHeartbeat : Int
deriving DecidableEq, Repr

/-- Heartbeat expiry window in seconds (HEARTBEAT_EXPIRE = 300 in the source). -/
def HEARTBEAT_EXPIRE : Int := 300

/-- Fallback TTL in seconds put on KV writes (KV_DEFAULT_TTL = 3600 * 24). -/
def KV_DEFAULT_TTL : Nat := 3600 * 24

/-- A stored blob: either a well-formed serialized node list, or a payload
on which JSON.parse would throw (carrying the message of the thrown error). -/
inductive Blob where
  | nodes (ns : List ServiceNode)
  | corrupt (raw : String)
deriving DecidableEq, Repr

/-- JSON.parse of a stored blob, as a fallible operation. -/
def parseBlob : Blob → Except String (List ServiceNode)
  | .nodes ns => .ok ns
  | .corrupt raw => .error raw

/-- The KV namespace state: an association list from key (service name) to
stored blob, in enumeration order. -/
abbrev Store := List (String × Blob)

/-- KV get: the value stored under a key, if any. -/
def kvGet : Store → String → Option Blob
  | [], _ => none
  | (k', v) :: rest, k => if k' = k then some v else kvGet rest k

/-- KV put: overwrite the value under a key (append if absent). -/
def kvPut : Store → String → Blob → Store
  | [], k, v => [(k, v)]
  | (k', v') :: rest, k, v =>
    if k' = k then (k, v) :: rest else (k', v') :: kvPut rest k v

/-- KV delete: remove a key. -/
def kvDel : Store → String → Store
  | [], _ => []
  | (k', v') :: rest, k =>
    if k' = k then kvDel rest k else (k', v') :: kvDel rest k

/-- One store operation performed by a handler: a read, a write of a
serialized node list (with its optional expirationTtl, in seconds), or a
key deletion. -/
inductive StoreOp where
  | get (key : String)
  | put (key : String) (value : List ServiceNode) (ttl : Option Nat)
  | del (key : String)
deriving DecidableEq, Repr

/-- Effect of one store operation on the store state. -/
def applyOp (store : Store) : StoreOp → Store
  | .get _ => store
  | .put k v _ => kvPut store k (.nodes v)
  | .del k => kvDel store k

/-- Effect of a trace of store operations on the store state. -/
def applyOps (store : Store) (ops : List StoreOp) : Store :=
  ops.foldl applyOp store

/-- ExpiryPolicy (isNodeExpired in the source): a node is expired iff the
time since its last heartbeat exceeds the expiry window. -/
def isNodeExpired (now : Int) (node : ServiceNode) : Bool :=
  decide (now - node.lastHeartbeat > HEARTBEAT_EXPIRE * 1000)

/-- The node list a handler obtains for a service: absent key means empty
list, a present blob is parsed (serviceStr ? JSON.parse(serviceStr) : []). -/
def getNodes (store : Store) (serviceName : String) :
    Except String (List ServiceNode) :=
  match kvGet store serviceName with
  | none => .ok []
  | some b => parseBlob b

/-- cleanExpiredNodes: the expire-and-compact pass for one service.  Fetch
the entry (absent means no nodes, no write); filter out expired nodes; if
any node stays active persist the active subset with the fallback TTL,
otherwise delete the key.  Returns the active nodes (or the parse error)
together with the trace of store operations performed. -/
def cleanExpiredNodes (store : Store) (now : Int) (serviceName : String) :
    Except String (List ServiceNode) × List StoreOp :=
  match kvGet store serviceName with
  | none => (.ok [], [.get serviceName])
  | some blob =>
    match parseBlob blob with
    | .error e => (.error e, [.get serviceName])
    | .ok nodes =>
      let activeNodes := nodes.filter (fun node => !isNodeExpired now node)
      if activeNodes.length > 0 then
        (.ok activeNodes,
         [.get serviceName, .put serviceName activeNodes (some KV_DEFAULT_TTL)])
      else
        (.ok activeNodes, [.get serviceName, .del serviceName])

/-- Sweep helper: run cleanExpiredNodes on each enumerated key in order,
threading the store state and accumulating the operation trace.  An error
(a thrown JSON.parse) aborts the recursion at that key, as the
for-await loop in cleanAllExpiredNodes has no per-key error handling. -/
def sweepKeys (now : Int) : List String → Store → List StoreOp →
    Store × List StoreOp × Option String
  | [], store, acc => (store, acc, none)
  | k :: ks, store, acc =>
    match cleanExpiredNodes store now k with
    | (.error e, _) => (store, acc, some e)
    | (.ok _, ops) => sweepKeys now ks (applyOps store ops) (acc ++ ops)

/-- cleanAllExpiredNodes: enumerate every key in the store and clean each
one; returns the final store, the write trace, and the error that aborted
the sweep, if any. -/
def cleanAllExpiredNodes (store : Store) (now : Int) :
    Store × List StoreOp × Option String :=
  sweepKeys now (store.map Prod.fst) store []

/-- Array.prototype.findIndex (as an Option instead of the -1 sentinel). -/
def findNodeIndex (p : α → Bool) : List α → Option Nat
  | [] => none
  | x :: xs => if p x then some 0 else (findNodeIndex p xs).map (· + 1)

/-- In-place update of the element at an index (nodes[i].lastHeartbeat = now). -/
def modifyIdx : List α → Nat → (α → α) → List α
  | [], _, _ => []
  | x :: xs, 0, f => f x :: xs
  | x :: xs, i + 1, f => x :: modifyIdx xs i f

/-- Outcome of the POST /heartbeat handler (register-or-renew). -/
inductive HbOutcome where
  | badRequest
  | ok (operationType : String) (lastHeartbeat nextDeadline : Int)
  | internalError (msg : String)
deriving DecidableEq, Repr

/-- POST /heartbeat: register-or-renew.  Empty/missing fields are rejected
before any store access.  The current entry is fetched (absent means empty
list); if the address is found its lastHeartbeat is overwritten to now
(outcome heartbeat), otherwise a fresh record is appended (outcome
register); the full resulting list is always persisted with the fallback
TTL, and the response carries nextDeadline = now + expiry window.  A
JSON.parse throw is caught and surfaced as an internal error. -/
def postHeartbeat (store : Store) (now : Int) (serviceName address : String) :
    HbOutcome × List StoreOp :=
  if serviceName = "" ∨ address = "" then (.badRequest, [])
  else
    match getNodes store serviceName with
    | .error e => (.internalError e, [.get serviceName])
    | .ok nodes =>
      match findNodeIndex (fun node => node.address == address) nodes with
      | none =>
        (.ok "register" now (now + HEARTBEAT_EXPIRE * 1000),
         [.get serviceName,
          .put serviceName (nodes ++ [{ address := address, lastHeartbeat := now }])
            (some KV_DEFAULT_TTL)])
      | some i =>
        (.ok "heartbeat" now (now + HEARTBEAT_EXPIRE * 1000),
         [.get serviceName,
          .put serviceName (modifyIdx nodes i (fun node => { node with lastHeartbeat := now }))
            (some KV_DEFAULT_TTL)])

/-- Outcome of the GET /discover handler. -/
inductive DiscoverOutcome where
  | badRequest
  | ok (activeCount : Nat) (activeAddresses : List String) (nodes : List ServiceNode)
  | internalError (msg : String)
deriving DecidableEq, Repr

/-- GET /discover: reject a missing/empty serviceName, otherwise run the
expire-and-compact pass for that service and report the resulting active
nodes (a thrown JSON.parse is caught and surfaced as an internal error). -/
def getDiscover (store : Store) (now : Int) (serviceName : String) :
    DiscoverOutcome × List StoreOp :=
  if serviceName = "" then (.badRequest, [])
  else
    match cleanExpiredNodes store now serviceName with
    | (.error e, ops) => (.internalError e, ops)
    | (.ok activeNodes, ops) =>
      (.ok activeNodes.length (activeNodes.map (fun node => node.address)) activeNodes,
       ops)

/-- Outcome of the POST /unregister handler. -/
inductive UnregOutcome where
  | badRequest
  | notFoundService
  | notFoundNode
  | success
  | internalError (msg : String)
deriving DecidableEq, Repr

/-- POST /unregister: reject empty/missing fields before any store access;
404 when the service key is absent; parse the entry (a throw is caught as
an internal error); filter out the given address; 404 when nothing was
removed; persist the remainder when non-empty (note: this put carries no
expirationTtl in the source) and delete the key when empty. -/
def postUnregister (store : Store) (serviceName address : String) :
    UnregOutcome × List StoreOp :=
  if serviceName = "" ∨ address = "" then (.badRequest, [])
  else
    match kvGet store serviceName with
    | none => (.notFoundService, [.get serviceName])
    | some blob =>
      match parseBlob blob with
      | .error e => (.internalError e, [.get serviceName])
      | .ok nodes =>
        let newNodes := nodes.filter (fun node => !(node.address == address))
        if newNodes.length = nodes.length then (.notFoundNode, [.get serviceName])
        else if newNodes.length > 0 then
          (.success, [.get serviceName, .put serviceName newNodes none])
        else
          (.success, [.get serviceName, .del serviceName])

/-- Every put in a trace writes a non-empty node list. -/
def opsNeverPutEmpty (ops : List StoreOp) : Bool :=
  ops.all fun op =>
    match op with
    | .put _ v _ => !v.isEmpty
    | _ => true

/-- Every put in a trace carries the given expirationTtl. -/
def putsAllTtl (ops : List StoreOp) (t : Option Nat) : Bool :=
  ops.all fun op =>
    match op with
    | .put _ _ ttl => ttl == t
    | _ => true

/-! ### Store lemmas -/

/-- Reading back the key a put just wrote yields the written blob. -/
theorem kvGet_kvPut_self (store : Store) (k : String) (v : Blob) :
    kvGet (kvPut store k v) k = some v := by
  induction store with
  | nil => simp [kvPut, kvGet]
  | cons p rest ih =>
    obtain ⟨k', v'⟩ := p
    by_cases h : k' = k
    · simp [kvPut, h, kvGet]
    · simp [kvPut, h, kvGet, ih]

/-- Reading a key a delete just removed yields nothing. -/
theorem kvGet_kvDel_self (store : Store) (k : String) :
    kvGet (kvDel store k) k = none := by
  induction store with
  | nil => simp [kvDel, kvGet]
  | cons p rest ih =>
    obtain ⟨k', v'⟩ := p
    by_cases h : k' = k
    · simp [kvDel, h, ih]
    · simp [kvDel, h, kvGet, ih]

/-! ### List helper lemmas -/

theorem findNodeIndex_eq_none_iff (p : α → Bool) (l : List α) :
    findNodeIndex p l = none ↔ ∀ x ∈ l, p x = false := by
  induction l with
  | nil => simp [findNodeIndex]
  | cons x xs ih =>
    cases h : p x <;> simp [findNodeIndex, h, ih]

theorem filter_all_true (p : α → Bool) (l : List α) (h : ∀ x ∈ l, p x = true) :
    l.filter p = l := by
  induction l with
  | nil => rfl
  | cons x xs ih =>
    simp [List.filter_cons, h x (by simp)]
    exact fun y hy => h y (by simp [hy])

theorem filter_all_false (p : α → Bool) (l : List α) (h : ∀ x ∈ l, p x = false) :
    l.filter p = [] := by
  induction l with
  | nil => rfl
  | cons x xs ih =>
    simp [List.filter_cons, h x (by simp)]
    exact fun y hy => h y (by simp [hy])

theorem filter_length_lt (p : α → Bool) (l : List α) (x : α)
    (hx : x ∈ l) (hpx : p x = false) :
    (l.filter p).length < l.length := by
  induction l with
  | nil => simp at hx
  | cons y ys ih =>
    rcases List.mem_cons.mp hx with rfl | hmem
    · simp only [List.filter_cons, hpx]
      exact Nat.lt_succ_of_le (List.length_filter_le p ys)
    · cases hy : p y <;> simp only [List.filter_cons, hy]
      · exact Nat.lt_succ_of_lt (ih hmem)
      · simpa using Nat.succ_lt_succ (ih hmem)

/-! ### Claim theorems -/

/-- C2: the expiry policy is true exactly when more than 300000 ms have
passed since the last heartbeat; a record 300001 ms old is excluded from
discover while one 299999 ms old is included. -/
theorem expiry_boundary (now : Int) (node : ServiceNode) (store : Store)
    (service addr : String) (hs : service ≠ "") :
    (isNodeExpired now node = true ↔ now - node.lastHeartbeat > 300000) ∧
    (kvGet store service = some (Blob.nodes [⟨addr, now - 300001⟩]) →
      (getDiscover store now service).1 = .ok 0 [] []) ∧
    (kvGet store service = some (Blob.nodes [⟨addr, now - 299999⟩]) →
      (getDiscover store now service).1 = .ok 1 [addr] [⟨addr, now - 299999⟩]) := by
  have hval : HEARTBEAT_EXPIRE * 1000 = (300000 : Int) := by decide
  refine ⟨?_, ?_, ?_⟩
  · constructor
    · intro h
      have h2 := of_decide_eq_true h
      rw [hval] at h2
      exact h2
    · intro h
      apply decide_eq_true
      rw [hval]
      exact h
  · intro hc
    have hexp : isNodeExpired now ⟨addr, now - 300001⟩ = true := by
      apply decide_eq_true
      rw [hval]
      show now - (now - 300001) > 300000
      omega
    simp [getDiscover, hs, cleanExpiredNodes, hc, parseBlob, hexp]
  · intro hc
    have hexp : isNodeExpired now ⟨addr, now - 299999⟩ = false := by
      apply decide_eq_false
      rw [hval]
      show ¬now - (now - 299999) > 300000
      omega
    simp [getDiscover, hs, cleanExpiredNodes, hc, parseBlob, hexp]

/-- Concrete instance of expiry_boundary at now = 0 with a record 300001 ms
old: it is expired and discover reports zero active nodes. -/
theorem expiry_boundary_witness :
    (getDiscover [("s", Blob.nodes [⟨"a", -300001⟩])] 0 "s").1 = .ok 0 [] [] :=
  (expiry_boundary 0 ⟨"a", -300001⟩ [("s", Blob.nodes [⟨"a", -300001⟩])] "s" "a"
    (by decide)).2.1 (by decide)

/-- C5: discover is exactly the single-service expire-and-compact pass
followed by reporting the resulting active nodes; an absent service key
yields activeCount = 0 with no error and no write. -/
theorem discover_is_compact_pass (store : Store) (now : Int) (service : String)
    (hs : service ≠ "") :
    (getDiscover store now service =
      match cleanExpiredNodes store now service with
      | (.ok act, ops) => (.ok act.length (act.map (fun n => n.address)) act, ops)
      | (.error e, ops) => (.internalError e, ops)) ∧
    (kvGet store service = none →
      getDiscover store now service = (.ok 0 [] [], [.get service])) := by
  constructor
  · rcases h : cleanExpiredNodes store now service with ⟨e | act, ops⟩ <;>
      simp [getDiscover, hs, h]
  · intro h0
    simp [getDiscover, hs, cleanExpiredNodes, h0]

/-- Concrete instance of discover_is_compact_pass on the empty store. -/
theorem discover_is_compact_pass_witness :
    getDiscover [] 0 "s" = (.ok 0 [] [], [.get "s"]) :=
  (discover_is_compact_pass [] 0 "s" (by decide)).2 (by decide)

/-- C7: a stored payload on which deserialization fails makes heartbeat,
discover and unregister surface an internal error carrying the parse
failure, with no write; none of them succeeds as if the data were empty. -/
theorem corrupt_payload_internal_error (store : Store) (now : Int)
    (service address raw : String)
    (hs : service ≠ "") (ha : address ≠ "")
    (hc : kvGet store service = some (Blob.corrupt raw)) :
    postHeartbeat store now service address = (.internalError raw, [.get service]) ∧
    getDiscover store now service = (.internalError raw, [.get service]) ∧
    postUnregister store service address = (.internalError raw, [.get service]) := by
  refine ⟨?_, ?_, ?_⟩
  · simp [postHeartbeat, getNodes, hs, ha, hc, parseBlob]
  · simp [getDiscover, cleanExpiredNodes, hs, hc, parseBlob]
  · simp [postUnregister, hs, ha, hc, parseBlob]

/-- Concrete instance of corrupt_payload_internal_error. -/
theorem corrupt_payload_internal_error_witness :
    postHeartbeat [("s", Blob.corrupt "oops")] 0 "s" "a" =
      (.internalError "oops", [.get "s"]) ∧
    getDiscover [("s", Blob.corrupt "oops")] 0 "s" =
      (.internalError "oops", [.get "s"]) ∧
    postUnregister [("s", Blob.corrupt "oops")] "s" "a" =
      (.internalError "oops", [.get "s"]) :=
  corrupt_payload_internal_error [("s", Blob.corrupt "oops")] 0 "s" "a" "oops"
    (by decide) (by decide) (by decide)

/-- C10: an empty serviceName or address field is rejected with BadRequest
by register-or-renew/heartbeat and by unregister, with no store operation
performed at all. -/
theorem empty_field_bad_request (store : Store) (now : Int)
    (service address : String) (h : service = "" ∨ address = "") :
    postHeartbeat store now service address = (.badRequest, []) ∧
    postUnregister store service address = (.badRequest, []) := by
  constructor
  · unfold postHeartbeat
    rw [if_pos h]
  · unfold postUnregister
    rw [if_pos h]

/-- Concrete instance of empty_field_bad_request with an empty serviceName. -/
theorem empty_field_bad_request_witness :
    postHeartbeat [("s", Blob.nodes [⟨"a", 0⟩])] 5 "" "a" = (.badRequest, []) ∧
    postUnregister [("s", Blob.nodes [⟨"a", 0⟩])] "" "a" = (.badRequest, []) :=
  empty_field_bad_request [("s", Blob.nodes [⟨"a", 0⟩])] 5 "" "a" (Or.inl rfl)

/-! ### Trace lemmas: TTL discipline and non-empty puts -/

theorem putsAllTtl_append (a b : List StoreOp) (t : Option Nat) :
    putsAllTtl (a ++ b) t = (putsAllTtl a t && putsAllTtl b t) := by
  simp [putsAllTtl, List.all_append]

theorem opsNeverPutEmpty_append (a b : List StoreOp) :
    opsNeverPutEmpty (a ++ b) = (opsNeverPutEmpty a && opsNeverPutEmpty b) := by
  simp [opsNeverPutEmpty, List.all_append]

theorem clean_puts_ttl (store : Store) (now : Int) (k : String) :
    putsAllTtl (cleanExpiredNodes store now k).2 (some KV_DEFAULT_TTL) = true := by
  unfold cleanExpiredNodes
  cases hg : kvGet store k with
  | none => simp [putsAllTtl]
  | some blob =>
    cases blob with
    | corrupt raw => simp [parseBlob, putsAllTtl]
    | nodes ns =>
      simp only [parseBlob]
      split <;> simp [putsAllTtl]

theorem clean_ops_nonempty (store : Store) (now : Int) (k : String) :
    opsNeverPutEmpty (cleanExpiredNodes store now k).2 = true := by
  unfold cleanExpiredNodes
  cases hg : kvGet store k with
  | none => simp [opsNeverPutEmpty]
  | some blob =>
    cases blob with
    | corrupt raw => simp [parseBlob, opsNeverPutEmpty]
    | nodes ns =>
      simp only [parseBlob]
      split
      · next h =>
        cases hact : ns.filter (fun node => !isNodeExpired now node) with
        | nil => rw [hact] at h; simp at h
        | cons a as => simp [opsNeverPutEmpty, hact]
      · simp [opsNeverPutEmpty]

theorem sweep_puts_ttl (now : Int) (ks : List String) (store : Store)
    (acc : List StoreOp) (hacc : putsAllTtl acc (some KV_DEFAULT_TTL) = true) :
    putsAllTtl (sweepKeys now ks store acc).2.1 (some KV_DEFAULT_TTL) = true := by
  induction ks generalizing store acc with
  | nil => simpa [sweepKeys]
  | cons k ks ih =>
    rcases h : cleanExpiredNodes store now k with ⟨e | act, ops⟩
    · simpa [sweepKeys, h]
    · rw [sweepKeys, h]
      apply ih
      rw [putsAllTtl_append, hacc]
      have hk := clean_puts_ttl store now k
      rw [h] at hk
      simpa using hk

theorem sweep_ops_nonempty (now : Int) (ks : List String) (store : Store)
    (acc : List StoreOp) (hacc : opsNeverPutEmpty acc = true) :
    opsNeverPutEmpty (sweepKeys now ks store acc).2.1 = true := by
  induction ks generalizing store acc with
  | nil => simpa [sweepKeys]
  | cons k ks ih =>
    rcases h : cleanExpiredNodes store now k with ⟨e | act, ops⟩
    · simpa [sweepKeys, h]
    · rw [sweepKeys, h]
      apply ih
      rw [opsNeverPutEmpty_append, hacc]
      have hk := clean_ops_nonempty store now k
      rw [h] at hk
      simpa using hk

/-- C6 counterexample: with a corrupt payload on the first enumerated key,
the sweep over the whole store aborts at once and returns the parse error;
the second, well-formed service still holds its expired node afterwards
(the store is returned unchanged), so the other services were NOT
compacted. -/
theorem sweep_not_isolated_counterexample :
    cleanAllExpiredNodes
        [("bad", Blob.corrupt "boom"), ("good", Blob.nodes [⟨"a", -400000⟩])] 0 =
      ([("bad", Blob.corrupt "boom"), ("good", Blob.nodes [⟨"a", -400000⟩])],
       [], some "boom") ∧
    isNodeExpired 0 ⟨"a", -400000⟩ = true := by
  decide

/-- C6 amended: per-service failures are not isolated.  A deserialization
failure while cleaning a service aborts the whole sweep at that service:
with the corrupt payload on the first enumerated key, no service at all is
compacted — the store is returned unchanged together with the parse error,
whatever the remaining services hold. -/
theorem sweep_aborts_on_corrupt_key (bad raw : String) (rest : Store) (now : Int) :
    cleanAllExpiredNodes ((bad, Blob.corrupt raw) :: rest) now =
      ((bad, Blob.corrupt raw) :: rest, [], some raw) := by
  simp [cleanAllExpiredNodes, sweepKeys, cleanExpiredNodes, kvGet, parseBlob]

/-- C9 counterexample: unregister of one of two addresses persists the
remaining non-empty sequence with NO expirationTtl, not the 24-hour
fallback TTL the claim asserts. -/
theorem unregister_put_no_ttl_counterexample :
    postUnregister [("s", Blob.nodes [⟨"a", 0⟩, ⟨"b", 0⟩])] "s" "a" =
      (.success, [.get "s", .put "s" [⟨"b", 0⟩] none]) ∧
    putsAllTtl [StoreOp.put "s" [⟨"b", 0⟩] none] (some KV_DEFAULT_TTL) = false := by
  decide

/-- C9 amended: every write of the register-or-renew operation and of the
expire-and-compact pass (hence of the sweep) sets the 24-hour fallback
TTL (86400 s), but the unregister write of a non-empty filtered sequence
sets no TTL at all. -/
theorem writes_ttl_policy (store : Store) (now : Int) (service address : String) :
    putsAllTtl (postHeartbeat store now service address).2 (some KV_DEFAULT_TTL) = true ∧
    putsAllTtl (getDiscover store now service).2 (some KV_DEFAULT_TTL) = true ∧
    putsAllTtl (cleanAllExpiredNodes store now).2.1 (some KV_DEFAULT_TTL) = true ∧
    putsAllTtl (postUnregister store service address).2 none = true := by
  refine ⟨?_, ?_, ?_, ?_⟩
  · unfold postHeartbeat
    split
    · simp [putsAllTtl]
    · cases hg : getNodes store service with
      | error e => simp [putsAllTtl]
      | ok nodes =>
        cases hf : findNodeIndex (fun node => node.address == address) nodes <;>
          simp [putsAllTtl, hf]
  · unfold getDiscover
    split
    · simp [putsAllTtl]
    · rcases h : cleanExpiredNodes store now service with ⟨e | act, ops⟩
      · have hk := clean_puts_ttl store now service
        rw [h] at hk
        simpa using hk
      · have hk := clean_puts_ttl store now service
        rw [h] at hk
        simpa using hk
  · exact sweep_puts_ttl now (store.map Prod.fst) store [] rfl
  · unfold postUnregister
    split
    · simp [putsAllTtl]
    · cases hg : kvGet store service with
      | none => simp [putsAllTtl]
      | some blob =>
        cases blob with
        | corrupt raw => simp [parseBlob, putsAllTtl]
        | nodes ns =>
          simp only [parseBlob]
          split
          · simp [putsAllTtl]
          · split <;> simp [putsAllTtl]

/-- C4: no operation ever persists an empty node sequence — every put in
the trace of register-or-renew, discover, unregister and the full sweep
writes a non-empty list (an empty result deletes the key instead). -/
theorem never_persist_empty (store : Store) (now : Int) (service address : String) :
    opsNeverPutEmpty (postHeartbeat store now service address).2 = true ∧
    opsNeverPutEmpty (getDiscover store now service).2 = true ∧
    opsNeverPutEmpty (postUnregister store service address).2 = true ∧
    opsNeverPutEmpty (cleanAllExpiredNodes store now).2.1 = true := by
  refine ⟨?_, ?_, ?_, ?_⟩
  · unfold postHeartbeat
    split
    · simp [opsNeverPutEmpty]
    · cases hg : getNodes store service with
      | error e => simp [opsNeverPutEmpty]
      | ok nodes =>
        cases hf : findNodeIndex (fun node => node.address == address) nodes with
        | none =>
          cases nodes <;> simp [opsNeverPutEmpty, hf]
        | some i =>
          cases nodes with
          | nil => simp [findNodeIndex] at hf
          | cons x xs => cases i <;> simp [opsNeverPutEmpty, hf, modifyIdx]
  · unfold getDiscover
    split
    · simp [opsNeverPutEmpty]
    · rcases h : cleanExpiredNodes store now service with ⟨e | act, ops⟩
      · have hk := clean_ops_nonempty store now service
        rw [h] at hk
        simpa using hk
      · have hk := clean_ops_nonempty store now service
        rw [h] at hk
        simpa using hk
  · unfold postUnregister
    split
    · simp [opsNeverPutEmpty]
    · cases hg : kvGet store service with
      | none => simp [opsNeverPutEmpty]
      | some blob =>
        cases blob with
        | corrupt raw => simp [parseBlob, opsNeverPutEmpty]
        | nodes ns =>
          simp only [parseBlob]
          split
          · simp [opsNeverPutEmpty]
          · split
            · next h =>
              cases hflt : ns.filter (fun node => !(node.address == address)) with
              | nil => rw [hflt] at h; simp at h
              | cons a as => simp [opsNeverPutEmpty, hflt]
            · simp [opsNeverPutEmpty]
  · exact sweep_ops_nonempty now (store.map Prod.fst) store [] rfl

theorem map_keep_of_no_match (address : String) (g : ServiceNode → ServiceNode)
    (xs : List ServiceNode) (h : ∀ n ∈ xs, n.address ≠ address) :
    xs.map (fun n => if n.address = address then g n else n) = xs := by
  induction xs with
  | nil => rfl
  | cons x xs ih =>
    have hx := h x (by simp)
    simp only [List.map_cons, hx, if_false]
    rw [ih (fun n hn => h n (by simp [hn]))]

/-- Updating the record the code finds first coincides, when addresses are
unique, with updating the unique record holding the given address. -/
theorem modifyIdx_map_of_nodup (address : String) (now : Int)
    (nodes : List ServiceNode) (i : Nat)
    (hnd : (nodes.map ServiceNode.address).Nodup)
    (hf : findNodeIndex (fun n => n.address == address) nodes = some i) :
    modifyIdx nodes i (fun n => { n with lastHeartbeat := now }) =
      nodes.map (fun n =>
        if n.address = address then { n with lastHeartbeat := now } else n) := by
  induction nodes generalizing i with
  | nil => simp [findNodeIndex] at hf
  | cons x xs ih =>
    rw [List.map_cons, List.nodup_cons] at hnd
    cases hx : x.address == address with
    | true =>
      simp only [findNodeIndex, hx, if_true] at hf
      obtain rfl : 0 = i := Option.some.inj hf
      have hxa : x.address = address := by simpa using hx
      have hnone : ∀ n ∈ xs, n.address ≠ address := by
        intro n hn he
        exact hnd.1 (by rw [← hxa] at he; exact List.mem_map.mpr ⟨n, hn, he⟩)
      simp [modifyIdx, hxa, map_keep_of_no_match address _ xs hnone]
    | false =>
      simp only [findNodeIndex, hx, Bool.false_eq_true, if_false,
        Option.map_eq_some'] at hf
      obtain ⟨j, hj, rfl⟩ := hf
      have hxne : x.address ≠ address := by simpa using hx
      simp [modifyIdx, hxne, ih j hnd.2 hj]

/-- C1: register-or-renew never fails on duplicate state: when the stored
entry parses and its addresses are unique, an existing address gets its
lastHeartbeat overwritten to now (outcome heartbeat) and a missing address
gets a fresh record appended (outcome register); in both cases the full
resulting sequence is persisted with the fallback TTL and the response
carries nextDeadline = now + 300000. -/
theorem heartbeat_upsert (store : Store) (now : Int) (service address : String)
    (nodes : List ServiceNode)
    (hs : service ≠ "") (ha : address ≠ "")
    (hw : getNodes store service = .ok nodes)
    (hnd : (nodes.map ServiceNode.address).Nodup) :
    postHeartbeat store now service address =
      if nodes.any (fun n => n.address == address) then
        (.ok "heartbeat" now (now + 300000),
         [.get service,
          .put service
            (nodes.map (fun n =>
              if n.address = address then { n with lastHeartbeat := now } else n))
            (some KV_DEFAULT_TTL)])
      else
        (.ok "register" now (now + 300000),
         [.get service,
          .put service (nodes ++ [{ address := address, lastHeartbeat := now }])
            (some KV_DEFAULT_TTL)]) := by
  have hval : HEARTBEAT_EXPIRE * 1000 = (300000 : Int) := by decide
  have hne : ¬(service = "" ∨ address = "") := by
    rintro (h | h)
    exacts [hs h, ha h]
  cases hany : nodes.any (fun n => n.address == address) with
  | false =>
    have hnone : findNodeIndex (fun n => n.address == address) nodes = none := by
      rw [findNodeIndex_eq_none_iff]
      intro x hx
      simpa using List.any_eq_false.mp hany x hx
    simp [postHeartbeat, hne, hw, hnone, hany, hval]
  | true =>
    obtain ⟨x, hx, hpx⟩ := List.any_eq_true.mp hany
    cases hfi : findNodeIndex (fun n => n.address == address) nodes with
    | none =>
      exfalso
      have hfalse := (findNodeIndex_eq_none_iff _ _).mp hfi x hx
      simp only [hfalse] at hpx
      exact absurd hpx (by simp)
    | some i =>
      have hmap := modifyIdx_map_of_nodup address now nodes i hnd hfi
      simp [postHeartbeat, hne, hw, hfi, hany, hmap, hval]

/-- Concrete instance of heartbeat_upsert: renewing an existing address
overwrites its heartbeat, reports outcome heartbeat and the 300000 ms
deadline, and persists the full list. -/
theorem heartbeat_upsert_witness :
    postHeartbeat [("s", Blob.nodes [⟨"a", 0⟩])] 7 "s" "a" =
      (.ok "heartbeat" 7 300007,
       [.get "s", .put "s" [⟨"a", 7⟩] (some KV_DEFAULT_TTL)]) := by
  have h := heartbeat_upsert [("s", Blob.nodes [⟨"a", 0⟩])] 7 "s" "a" [⟨"a", 0⟩]
    (by decide) (by decide) (by simp [getNodes, kvGet, parseBlob]) (by simp)
  rw [h]
  decide

theorem findNodeIndex_append_singleton (p : α → Bool) (l : List α) (x : α)
    (hl : ∀ y ∈ l, p y = false) (hx : p x = true) :
    findNodeIndex p (l ++ [x]) = some l.length := by
  induction l with
  | nil => simp [findNodeIndex, hx]
  | cons y ys ih =>
    have hy := hl y (by simp)
    simp [findNodeIndex, hy, ih (fun z hz => hl z (by simp [hz]))]

theorem modifyIdx_append_length (l : List α) (x : α) (f : α → α) :
    modifyIdx (l ++ [x]) l.length f = l ++ [f x] := by
  induction l with
  | nil => rfl
  | cons y ys ih => simp [modifyIdx, ih]

/-- C8: starting from a store where the address is not registered for the
service, two register-or-renew calls produce outcome register then
heartbeat, and the stored sequence afterwards holds exactly one record for
that address, carrying the second call's time. -/
theorem register_then_heartbeat (store : Store) (t1 t2 : Int)
    (service address : String) (nodes : List ServiceNode)
    (hs : service ≠ "") (ha : address ≠ "")
    (hw : getNodes store service = .ok nodes)
    (hno : ∀ n ∈ nodes, n.address ≠ address) :
    (postHeartbeat store t1 service address).1 = .ok "register" t1 (t1 + 300000) ∧
    (postHeartbeat (applyOps store (postHeartbeat store t1 service address).2)
        t2 service address).1 = .ok "heartbeat" t2 (t2 + 300000) ∧
    kvGet
        (applyOps (applyOps store (postHeartbeat store t1 service address).2)
          (postHeartbeat (applyOps store (postHeartbeat store t1 service address).2)
              t2 service address).2)
        service
      = some (.nodes (nodes ++ [⟨address, t2⟩])) ∧
    (nodes ++ [(⟨address, t2⟩ : ServiceNode)]).filter
        (fun n : ServiceNode => n.address == address)
      = [⟨address, t2⟩] := by
  have hval : HEARTBEAT_EXPIRE * 1000 = (300000 : Int) := by decide
  have hne : ¬(service = "" ∨ address = "") := by
    rintro (h | h)
    exacts [hs h, ha h]
  have hbf : ∀ n ∈ nodes, (n.address == address) = false := by
    intro n hn
    simpa using hno n hn
  have hfind1 : findNodeIndex (fun n => n.address == address) nodes = none :=
    (findNodeIndex_eq_none_iff _ _).mpr hbf
  have h1 : postHeartbeat store t1 service address =
      (.ok "register" t1 (t1 + 300000),
       [.get service,
        .put service (nodes ++ [⟨address, t1⟩]) (some KV_DEFAULT_TTL)]) := by
    simp [postHeartbeat, hne, hw, hfind1, hval]
  have hstore1 : applyOps store (postHeartbeat store t1 service address).2 =
      kvPut store service (.nodes (nodes ++ [⟨address, t1⟩])) := by
    rw [h1]
    rfl
  have hget1 : getNodes (kvPut store service (.nodes (nodes ++ [⟨address, t1⟩])))
      service = .ok (nodes ++ [⟨address, t1⟩]) := by
    simp [getNodes, kvGet_kvPut_self, parseBlob]
  have hfind2 : findNodeIndex (fun n : ServiceNode => n.address == address)
      (nodes ++ [⟨address, t1⟩]) = some nodes.length :=
    findNodeIndex_append_singleton _ nodes _ hbf (by simp)
  have hmod : modifyIdx (nodes ++ [⟨address, t1⟩]) nodes.length
      (fun n => { n with lastHeartbeat := t2 }) = nodes ++ [⟨address, t2⟩] := by
    rw [modifyIdx_append_length]
  have h2 : postHeartbeat (kvPut store service (.nodes (nodes ++ [⟨address, t1⟩])))
      t2 service address =
      (.ok "heartbeat" t2 (t2 + 300000),
       [.get service,
        .put service (nodes ++ [⟨address, t2⟩]) (some KV_DEFAULT_TTL)]) := by
    simp [postHeartbeat, hne, hget1, hfind2, hmod, hval]
  refine ⟨by rw [h1], ?_, ?_, ?_⟩
  · rw [hstore1, h2]
  · rw [hstore1, h2]
    simp [applyOps, applyOp, kvGet_kvPut_self]
  · rw [List.filter_append, filter_all_false _ nodes hbf]
    simp

/-- Concrete instance of register_then_heartbeat on an empty store: outcome
register at t = 3, outcome heartbeat at t = 9, and one stored record with
lastHeartbeat = 9. -/
theorem register_then_heartbeat_witness :
    (postHeartbeat [] 3 "s" "a").1 = .ok "register" 3 (3 + 300000) ∧
    (postHeartbeat (applyOps [] (postHeartbeat [] 3 "s" "a").2) 9 "s" "a").1
      = .ok "heartbeat" 9 (9 + 300000) ∧
    kvGet
        (applyOps (applyOps [] (postHeartbeat [] 3 "s" "a").2)
          (postHeartbeat (applyOps [] (postHeartbeat [] 3 "s" "a").2) 9 "s" "a").2)
        "s"
      = some (.nodes ([] ++ [⟨"a", 9⟩])) ∧
    ([] ++ [(⟨"a", 9⟩ : ServiceNode)]).filter
        (fun n : ServiceNode => n.address == "a")
      = [⟨"a", 9⟩] :=
  register_then_heartbeat [] 3 9 "s" "a" [] (by decide) (by decide) rfl
    (by simp)

/-- C3: unregister fails with NotFound(service) on an absent key and with
NotFound(address) when no record matches, performing no write in either
case; on a match the filtered sequence is persisted when non-empty and the
key is deleted when empty, and a second unregister of the same address
yields NotFound again (removal is not idempotent). -/
theorem unregister_spec (store : Store) (service address : String)
    (nodes : List ServiceNode)
    (hs : service ≠ "") (ha : address ≠ "") :
    (kvGet store service = none →
      postUnregister store service address = (.notFoundService, [.get service])) ∧
    (kvGet store service = some (.nodes nodes) →
      (∀ n ∈ nodes, n.address ≠ address) →
      postUnregister store service address = (.notFoundNode, [.get service])) ∧
    (kvGet store service = some (.nodes nodes) →
      (∃ n ∈ nodes, n.address = address) →
      postUnregister store service address =
        (.success,
         if (nodes.filter (fun n => !(n.address == address))).length > 0 then
           [.get service,
            .put service (nodes.filter (fun n => !(n.address == address))) none]
         else [.get service, .del service]) ∧
      ((postUnregister (applyOps store (postUnregister store service address).2)
            service address).1 = .notFoundService ∨
       (postUnregister (applyOps store (postUnregister store service address).2)
            service address).1 = .notFoundNode)) := by
  have hne : ¬(service = "" ∨ address = "") := by
    rintro (h | h)
    exacts [hs h, ha h]
  refine ⟨?_, ?_, ?_⟩
  · intro h0
    simp [postUnregister, hne, h0]
  · intro h0 hall
    have hkeep : nodes.filter (fun n => !(n.address == address)) = nodes :=
      filter_all_true _ nodes (by intro n hn; simpa using hall n hn)
    simp [postUnregister, hne, h0, parseBlob, hkeep]
  · intro h0 hex
    obtain ⟨n0, hn0, ha0⟩ := hex
    have hlt : (nodes.filter (fun n => !(n.address == address))).length
        < nodes.length :=
      filter_length_lt _ nodes n0 hn0 (by simp [ha0])
    have hneq : ¬((nodes.filter (fun n => !(n.address == address))).length
        = nodes.length) := Nat.ne_of_lt hlt
    have hkeep2 : (nodes.filter (fun n => !(n.address == address))).filter
          (fun n => !(n.address == address))
        = nodes.filter (fun n => !(n.address == address)) :=
      filter_all_true _ _ (fun n hn => (List.mem_filter.mp hn).2)
    by_cases hc : (nodes.filter (fun n => !(n.address == address))).length > 0
    · have hres : postUnregister store service address =
          (.success,
           [.get service,
            .put service (nodes.filter (fun n => !(n.address == address))) none]) := by
        simp [postUnregister, hne, h0, parseBlob, hneq, hc]
      refine ⟨by rw [hres]; simp [hc], Or.inr ?_⟩
      rw [hres]
      simp [applyOps, applyOp, postUnregister, hne, kvGet_kvPut_self, parseBlob,
        hkeep2]
    · have hres : postUnregister store service address =
          (.success, [.get service, .del service]) := by
        simp [postUnregister, hne, h0, parseBlob, hneq, hc]
      refine ⟨by rw [hres]; simp [hc], Or.inl ?_⟩
      rw [hres]
      simp [applyOps, applyOp, postUnregister, hne, kvGet_kvDel_self]

/-- Concrete instance of unregister_spec: removing one of two addresses
persists the remainder, and removing it again yields NotFound. -/
theorem unregister_spec_witness :
    postUnregister [("s", Blob.nodes [⟨"a", 0⟩, ⟨"b", 0⟩])] "s" "a" =
      (.success, [.get "s", .put "s" [⟨"b", 0⟩] none]) ∧
    ((postUnregister
          (applyOps [("s", Blob.nodes [⟨"a", 0⟩, ⟨"b", 0⟩])]
            (postUnregister [("s", Blob.nodes [⟨"a", 0⟩, ⟨"b", 0⟩])] "s" "a").2)
          "s" "a").1 = .notFoundService ∨
     (postUnregister
          (applyOps [("s", Blob.nodes [⟨"a", 0⟩, ⟨"b", 0⟩])]
            (postUnregister [("s", Blob.nodes [⟨"a", 0⟩, ⟨"b", 0⟩])] "s" "a").2)
          "s" "a").1 = .notFoundNode) := by
  have h := (unregister_spec [("s", Blob.nodes [⟨"a", 0⟩, ⟨"b", 0⟩])] "s" "a"
      [⟨"a", 0⟩, ⟨"b", 0⟩] (by decide) (by decide)).2.2 (by decide)
      ⟨⟨"a", 0⟩, by simp, rfl⟩
  exact ⟨by rw [h.1]; decide, h.2⟩

end RegistryCenter
